import Mathlib

/-!
# Market Analyst frontend: conversation session controller

Shallow embedding of the state and control logic of `frontend/src/App.js`
(the `App` component): the four `useState` slots, the two asynchronous handlers
`handleSendMessage` and `handleFileUpload`, the status banner's `onClose`, the
draft `onChange`, and the `setTimeout` armed by a successful upload.

Modelling conventions.

* An `async` handler is split at its single `await`: the part before the
  `await` is one atomic transition (it also records the outstanding HTTP call),
  the continuation (`try` branch or `catch` branch, then `finally`) is a second
  atomic transition taken when the call settles.
* React re-renders between two events, so a handler reads the current values of
  `inputMessage` and `isLoading`; `setMessages(prev => ...)` is a functional
  update and reads the current transcript anyway.
* The clock `now` is in milliseconds; `new Date()` reads it and
  `setTimeout(f, 5000)` queues the deadline `now + 5000`. Every queued callback
  is `() => setUploadStatus(null)`, so a timer is represented by its deadline.
* JavaScript strings are modelled by `String`. The duration in milliseconds
  of a query is only copied and is a `Nat`; the chunk count of an upload is
  printed by a template literal and is a `JsNumber`.
-/

namespace App

/-! ## JavaScript string helpers -/

/-- Code points removed by `String.prototype.trim`: ECMAScript `WhiteSpace`
(TAB, VT, FF, ZWNBSP and the Unicode space separators) and `LineTerminator`
(LF, CR, LS, PS). -/
def isJsWhiteSpace (c : Char) : Bool :=
  let n := c.toNat
  n = 0x09 || n = 0x0A || n = 0x0B || n = 0x0C || n = 0x0D || n = 0x20 ||
  n = 0xA0 || n = 0x1680 || (0x2000 ≤ n && n ≤ 0x200A) ||
  n = 0x2028 || n = 0x2029 || n = 0x202F || n = 0x205F || n = 0x3000 ||
  n = 0xFEFF

/-- The method `String.prototype.trim`: drop white space from both ends. -/
def jsTrim (s : String) : String :=
  ⟨((s.data.dropWhile isJsWhiteSpace).reverse.dropWhile isJsWhiteSpace).reverse⟩

/-- JavaScript truthiness of a string: only the empty string is falsy. -/
def truthy (s : String) : Bool := !(s == "")

/-- The expression `a || b` where `a` is a possibly `undefined` string and `b` a string:
the left operand when it is truthy (present and non-empty), else the right. -/
def jsOr (a : Option String) (b : String) : String :=
  match a with
  | some d => if truthy d then d else b
  | none => b

/-- The constant `Number.MAX_SAFE_INTEGER`, that is 2^53 - 1. -/
def maxSafeInteger : Nat := 9007199254740991

/-- A number as it arrives in a response body and is then interpolated into a
template literal. It is either a non-negative integer not above
`Number.MAX_SAFE_INTEGER`, which a template literal prints as its decimal
digits, or any other value (a fraction, a negative number, an integer beyond
the safe range such as 1e21, which prints as `1e+21`), represented by the
text that the template literal prints for it. -/
inductive JsNumber where
  | safe (k : Fin (maxSafeInteger + 1))
  | other (printed : String)
  deriving DecidableEq

/-- Template-literal rendering `${n}` of a number. -/
def numToString : JsNumber → String
  | .safe k => Nat.repr k.val
  | .other printed => printed

/-! ## Data model -/

/-- The `type` field of a transcript entry. -/
inductive MsgType where
  | user
  | agent
  | system
  deriving DecidableEq

/-- One element of the `messages` array. `tool` and `time` are `none` when the
property is `undefined` or not written at all. -/
structure Message where
  type : MsgType
  text : String
  tool : Option String
  time : Option Nat
  timestamp : Nat
  deriving DecidableEq

/-- The `type` field of the upload banner. -/
inductive StatusType where
  | info
  | success
  | error
  deriving DecidableEq

/-- The object held in `uploadStatus`. -/
structure UploadStatus where
  type : StatusType
  message : String
  deriving DecidableEq

/-- The selected `File`; only `name` is read by the component. -/
structure File where
  name : String
  deriving DecidableEq

/-- The body `{ query: userMessage }` of an outstanding `POST /api/query`. -/
structure QueryCall where
  query : String
  deriving DecidableEq

/-- The fields of `response.data` read after a successful query. -/
structure QueryResponse where
  answer : String
  tool_used : Option String
  execution_time_ms : Option Nat
  deriving DecidableEq

/-- The field of `response.data` read after a successful upload. -/
structure UploadResponse where
  chunks_created : JsNumber
  deriving DecidableEq

/-- The `data` of an error response: `detail` may be missing. -/
structure ErrorData where
  detail : Option String
  deriving DecidableEq

/-- The `response` of a rejected call: `data` may be missing. -/
structure ErrorResponse where
  data : Option ErrorData
  deriving DecidableEq

/-- The rejection value of `axios.post`: `response` is missing on a transport
failure; `message` is the generic description. -/
structure AxiosError where
  response : Option ErrorResponse
  message : String
  deriving DecidableEq

/-- The optional chain `error.response?.data?.detail`. -/
def AxiosError.detail (e : AxiosError) : Option String :=
  match e.response with
  | none => none
  | some r =>
    match r.data with
    | none => none
    | some d => d.detail

/-- The expression `error.response?.data?.detail || error.message`. -/
def errorText (e : AxiosError) : String := jsOr e.detail e.message

/-- Component state (`messages`, `inputMessage`, `isLoading`, `uploadStatus`)
together with its environment: the clock, the queue of pending `setTimeout`
deadlines, and the HTTP calls that have been issued and have not settled. -/
structure State where
  messages : List Message
  inputMessage : String
  isLoading : Bool
  uploadStatus : Option UploadStatus
  now : Nat
  timers : List Nat
  queryCalls : List QueryCall
  uploadCalls : List File
  deriving DecidableEq

/-- The state after the first render: `useState([])`, `useState('')`,
`useState(false)`, `useState(null)`; nothing scheduled, nothing in flight. -/
def init : State :=
  { messages := [], inputMessage := "", isLoading := false, uploadStatus := none,
    now := 0, timers := [], queryCalls := [], uploadCalls := [] }

/-! ## `handleSendMessage` -/

/-- The handler `handleSendMessage` up to its `await`: the guard, then the optimistic clear
of the draft, the `user` entry, `setIsLoading(true)` and the `axios.post`. -/
def handleSendMessage (s : State) : State :=
  if !truthy (jsTrim s.inputMessage) || s.isLoading then s
  else
    let userMessage := jsTrim s.inputMessage
    { s with
      inputMessage := ""
      messages := s.messages ++
        [{ type := .user, text := userMessage, tool := none, time := none,
           timestamp := s.now }]
      isLoading := true
      queryCalls := s.queryCalls ++ [{ query := userMessage }] }

/-- The `try` continuation of `handleSendMessage` followed by `finally`. -/
def handleSendMessageResolved (s : State) (r : QueryResponse) : State :=
  { s with
    messages := s.messages ++
      [{ type := .agent, text := r.answer, tool := r.tool_used,
         time := r.execution_time_ms, timestamp := s.now }]
    isLoading := false }

/-- The `catch` continuation of `handleSendMessage` followed by `finally`. -/
def handleSendMessageRejected (s : State) (e : AxiosError) : State :=
  { s with
    messages := s.messages ++
      [{ type := .agent, text := "Error: " ++ errorText e, tool := none,
         time := none, timestamp := s.now }]
    isLoading := false }

/-! ## `handleFileUpload` -/

/-- The handler `handleFileUpload` up to its `await`; the argument is
`event.target.files[0]`, `none` when no file was chosen. -/
def handleFileUpload (s : State) (file : Option File) : State :=
  match file with
  | none => s
  | some f =>
    { s with
      uploadStatus := some { type := .info, message := "Uploading " ++ f.name ++ "..." }
      uploadCalls := s.uploadCalls ++ [f] }

/-- The `try` continuation of `handleFileUpload` for the file `f`. -/
def handleFileUploadResolved (s : State) (f : File) (r : UploadResponse) : State :=
  { s with
    uploadStatus := some
      { type := .success
        message := "✅ Document processed! " ++ numToString r.chunks_created ++
          " chunks stored in vector database." }
    messages := s.messages ++
      [{ type := .system
         text := "Document \"" ++ f.name ++
           "\" uploaded and processed through RAG pipeline. Ready for queries!"
         tool := none, time := none, timestamp := s.now }]
    timers := s.timers ++ [s.now + 5000] }

/-- The `catch` continuation of `handleFileUpload`. -/
def handleFileUploadRejected (s : State) (e : AxiosError) : State :=
  { s with
    uploadStatus := some { type := .error, message := "❌ Error: " ++ errorText e } }

/-! ## The remaining setters and the timer queue -/

/-- The draft field's `onChange`: `setInputMessage(e.target.value)`. -/
def handleInputChange (s : State) (value : String) : State :=
  { s with inputMessage := value }

/-- The banner's `onClose`: `setUploadStatus(null)`. -/
def handleStatusClose (s : State) : State :=
  { s with uploadStatus := none }

/-- Run every queued `() => setUploadStatus(null)` whose deadline has been
reached and drop it from the queue. -/
def fireTimers (s : State) : State :=
  if s.timers.any (fun d => decide (d ≤ s.now)) then
    { s with
      uploadStatus := none
      timers := s.timers.filter (fun d => !decide (d ≤ s.now)) }
  else s

/-- Let `d` milliseconds pass, then run the timers that became due. -/
def elapse (s : State) (d : Nat) : State :=
  fireTimers { s with now := s.now + d }

/-! ## Events and runs -/

/-- How an outstanding call settles. -/
inductive Outcome (α : Type) where
  | resolved (response : α)
  | rejected (error : AxiosError)

/-- Everything that can happen to the component. A settle event names the
outstanding call by its position in the list of calls in flight. -/
inductive Event where
  | editDraft (value : String)
  | submit
  | querySettle (i : Nat) (o : Outcome QueryResponse)
  | upload (file : Option File)
  | uploadSettle (i : Nat) (o : Outcome UploadResponse)
  | dismiss
  | elapse (d : Nat)

/-- The continuation of `handleSendMessage` for either outcome. -/
def settleQuery (s : State) : Outcome QueryResponse → State
  | .resolved r => handleSendMessageResolved s r
  | .rejected e => handleSendMessageRejected s e

/-- The continuation of `handleFileUpload` for either outcome. -/
def settleUpload (s : State) (f : File) : Outcome UploadResponse → State
  | .resolved r => handleFileUploadResolved s f r
  | .rejected e => handleFileUploadRejected s e

/-- One transition. A settle event is enabled only for a call in flight; the
call leaves the list of outstanding calls and its continuation runs. -/
def step (s : State) : Event → Option State
  | .editDraft v => some (handleInputChange s v)
  | .submit => some (handleSendMessage s)
  | .querySettle i o =>
    match s.queryCalls[i]? with
    | none => none
    | some _ => some (settleQuery { s with queryCalls := s.queryCalls.eraseIdx i } o)
  | .upload file => some (handleFileUpload s file)
  | .uploadSettle i o =>
    match s.uploadCalls[i]? with
    | none => none
    | some f => some (settleUpload { s with uploadCalls := s.uploadCalls.eraseIdx i } f o)
  | .dismiss => some (handleStatusClose s)
  | .elapse d => some (elapse s d)

/-- Run a sequence of events; `none` when some event is not enabled. -/
def run (s : State) : List Event → Option State
  | [] => some s
  | e :: es =>
    match step s e with
    | none => none
    | some s' => run s' es

/-- States reachable from the initial render. -/
def Reachable (s : State) : Prop := ∃ es, run init es = some s

/-- Events that write a new banner: an upload starting or settling. -/
def Event.setsStatus : Event → Bool
  | .upload _ => true
  | .uploadSettle _ _ => true
  | _ => false

/-- Events that settle a query. -/
def Event.settlesQuery : Event → Bool
  | .querySettle _ _ => true
  | _ => false

/-- Events that close the banner by hand. -/
def Event.closesStatus : Event → Bool
  | .dismiss => true
  | _ => false

/-- Events whose handler can append to the transcript: a submit and the
settle of a query or of an upload. -/
def Event.mayAppend : Event → Bool
  | .submit => true
  | .querySettle _ _ => true
  | .uploadSettle _ _ => true
  | _ => false

/-- Total time that passes during a sequence of events. -/
def elapsed : List Event → Nat
  | [] => 0
  | .elapse d :: es => d + elapsed es
  | _ :: es => elapsed es

/-- The `user` entry written by an accepted submit at clock `t`. -/
def userEntry (text : String) (t : Nat) : Message :=
  { type := .user, text := text, tool := none, time := none, timestamp := t }

/-- The `agent` entry written when a query resolves at clock `t`. -/
def answerEntry (r : QueryResponse) (t : Nat) : Message :=
  { type := .agent, text := r.answer, tool := r.tool_used,
    time := r.execution_time_ms, timestamp := t }

/-- The `agent` entry written when a query is rejected at clock `t`. -/
def errorEntry (e : AxiosError) (t : Nat) : Message :=
  { type := .agent, text := "Error: " ++ errorText e, tool := none, time := none,
    timestamp := t }

/-- The `system` entry written when the upload of `f` resolves at clock `t`. -/
def systemEntry (f : File) (t : Nat) : Message :=
  { type := .system
    text := "Document \"" ++ f.name ++
      "\" uploaded and processed through RAG pipeline. Ready for queries!"
    tool := none, time := none, timestamp := t }

/-- The `agent` entry written when a query settles with outcome `o` at clock `t`. -/
def settleEntry (o : Outcome QueryResponse) (t : Nat) : Message :=
  match o with
  | .resolved r => answerEntry r t
  | .rejected e => errorEntry e t

/-- The banner written when an upload resolves with `r`. -/
def successStatus (r : UploadResponse) : UploadStatus :=
  { type := .success
    message := "✅ Document processed! " ++ numToString r.chunks_created ++
      " chunks stored in vector database." }

/-- The banner written when an upload is rejected with `e`. -/
def errorStatus (e : AxiosError) : UploadStatus :=
  { type := .error, message := "❌ Error: " ++ errorText e }

/-- The texts of a transcript, in order. -/
def texts (s : State) : List String := s.messages.map Message.text

/-! ## Tool display mapping -/

/-- The icon components rendered for a tool chip. -/
inductive IconComponent where
  | PsychologyIcon
  | InsightsIcon
  | DataObjectIcon
  deriving DecidableEq

/-- The element `<Icon sx={{ fontSize: n }} />`. -/
structure IconElement where
  component : IconComponent
  fontSize : Nat
  deriving DecidableEq

/-- The function `getToolIcon`: a `switch` on the tool name by strict equality;
`none` is the `null` of the default branch. -/
def getToolIcon (toolName : String) : Option IconElement :=
  if toolName = "qa_tool" then some { component := .PsychologyIcon, fontSize := 16 }
  else if toolName = "insights_tool" then some { component := .InsightsIcon, fontSize := 16 }
  else if toolName = "extract_tool" then some { component := .DataObjectIcon, fontSize := 16 }
  else none

/-- The function `getToolLabel`: a `switch` on the tool name by strict
equality; the default branch returns the name itself. -/
def getToolLabel (toolName : String) : String :=
  if toolName = "qa_tool" then "Q&A"
  else if toolName = "insights_tool" then "Insights"
  else if toolName = "extract_tool" then "Extract"
  else toolName

/-! ## Sample inputs -/

/-- A file named `report.pdf`. -/
def reportPdf : File := { name := "report.pdf" }

/-- A file named `notes.txt`. -/
def notesTxt : File := { name := "notes.txt" }

/-- A transport failure: no response at all. -/
def networkError : AxiosError := { response := none, message := "Network Error" }

/-- A 500 response whose body is `{detail: "unsupported format"}`. -/
def unsupportedFormatError : AxiosError :=
  { response := some { data := some { detail := some "unsupported format" } }
    message := "Request failed with status code 500" }

/-- A 500 response whose body is `{detail: ""}`. -/
def emptyDetailError : AxiosError :=
  { response := some { data := some { detail := some "" } }
    message := "Request failed with status code 500" }

/-- The response `{answer: "$5M", tool_used: "qa_tool", execution_time_ms: 120}`. -/
def revenueAnswer : QueryResponse :=
  { answer := "$5M", tool_used := some "qa_tool", execution_time_ms := some 120 }

/-- The file `report.pdf` has resolved at time 0; `notes.txt` started uploading at 2000
and the clock now reads 2500. -/
def secondUploadPending : State :=
  elapse (handleFileUpload
    (elapse (handleFileUploadResolved init reportPdf { chunks_created := .safe 14 }) 2000)
    (some notesTxt)) 500

/-- From `secondUploadPending`, `notes.txt` has resolved at time 2500. -/
def secondUploadResolved : State :=
  handleFileUploadResolved
    { secondUploadPending with uploadCalls := secondUploadPending.uploadCalls.eraseIdx 0 }
    notesTxt { chunks_created := .safe 3 }

/-- The query "hi" is pending and the draft reads "next". -/
def pendingWithDraft : State :=
  handleInputChange (handleSendMessage (handleInputChange init "hi")) "next"

/-- From `pendingWithDraft`, `report.pdf` was uploaded and has resolved. -/
def uploadedWhilePending : State :=
  handleFileUploadResolved
    { handleFileUpload pendingWithDraft (some reportPdf) with
      uploadCalls := (handleFileUpload pendingWithDraft (some reportPdf)).uploadCalls.eraseIdx 0 }
    reportPdf { chunks_created := .safe 14 }

/-- The upload of `report.pdf` is in flight, its `info` banner was closed by
hand and a second has passed. -/
def uploadDismissed : State :=
  elapse (handleStatusClose (handleFileUpload init (some reportPdf))) 1000

/-! ## Auxiliary lemmas -/

theorem error_text_ne_empty (x : String) : "Error: " ++ x ≠ "" := by
  intro h
  have hlen := congrArg String.length h
  rw [String.length_append] at hlen
  have h7 : "Error: ".length = 7 := by decide
  have h0 : "".length = 0 := by decide
  omega

theorem jsOr_of_nonempty (d b : String) (h : d ≠ "") : jsOr (some d) b = d := by
  simp [jsOr, truthy, h]

theorem jsOr_of_absent_or_empty (a : Option String) (b : String)
    (h : a = none ∨ a = some "") : jsOr a b = b := by
  rcases h with h | h <;> subst h <;> simp [jsOr, truthy]

theorem handleSendMessage_of_guard (s : State)
    (h : (!truthy (jsTrim s.inputMessage) || s.isLoading) = true) :
    handleSendMessage s = s := by
  simp only [handleSendMessage, h, if_true]

theorem handleSendMessage_of_pass (s : State)
    (h : (!truthy (jsTrim s.inputMessage) || s.isLoading) = false) :
    handleSendMessage s =
      { s with
        inputMessage := ""
        messages := s.messages ++ [userEntry (jsTrim s.inputMessage) s.now]
        isLoading := true
        queryCalls := s.queryCalls ++ [{ query := jsTrim s.inputMessage }] } := by
  simp [handleSendMessage, h, userEntry]

theorem fireTimers_queryCalls (s : State) : (fireTimers s).queryCalls = s.queryCalls := by
  unfold fireTimers; split <;> rfl

theorem fireTimers_isLoading (s : State) : (fireTimers s).isLoading = s.isLoading := by
  unfold fireTimers; split <;> rfl

theorem fireTimers_messages (s : State) : (fireTimers s).messages = s.messages := by
  unfold fireTimers; split <;> rfl

theorem fireTimers_now (s : State) : (fireTimers s).now = s.now := by
  unfold fireTimers; split <;> rfl

/-- The serialization invariant is preserved by every transition. -/
theorem step_serialized (s s' : State) (e : Event) (hstep : step s e = some s')
    (hinv : s.queryCalls.length ≤ 1 ∧ (s.isLoading = true ↔ s.queryCalls.length = 1)) :
    s'.queryCalls.length ≤ 1 ∧ (s'.isLoading = true ↔ s'.queryCalls.length = 1) := by
  obtain ⟨hle, hiff⟩ := hinv
  cases e with
  | editDraft v =>
    simp only [step, Option.some.injEq] at hstep
    subst hstep
    exact ⟨hle, hiff⟩
  | submit =>
    simp only [step, Option.some.injEq] at hstep
    subst hstep
    cases hg : (!truthy (jsTrim s.inputMessage) || s.isLoading)
    · rw [handleSendMessage_of_pass s hg]
      have hl : s.isLoading = false := by
        cases hb : s.isLoading
        · rfl
        · rw [hb] at hg; simp at hg
      have h0 : s.queryCalls.length = 0 := by
        have : ¬ s.queryCalls.length = 1 := fun h1 => by
          have := hiff.mpr h1
          rw [hl] at this
          exact Bool.noConfusion this
        omega
      simp [h0]
    · rw [handleSendMessage_of_guard s hg]
      exact ⟨hle, hiff⟩
  | querySettle i o =>
    simp only [step] at hstep
    cases hc : s.queryCalls[i]? with
    | none => rw [hc] at hstep; exact Option.noConfusion hstep
    | some c =>
      rw [hc] at hstep
      simp only [Option.some.injEq] at hstep
      subst hstep
      have hi : i < s.queryCalls.length := by
        rcases Nat.lt_or_ge i s.queryCalls.length with h | h
        · exact h
        · rw [List.getElem?_eq_none h] at hc; exact Option.noConfusion hc
      have hlen : (s.queryCalls.eraseIdx i).length = 0 := by
        rw [List.length_eraseIdx, if_pos hi]; omega
      cases o <;>
        simp [settleQuery, handleSendMessageResolved, handleSendMessageRejected, hlen]
  | upload file =>
    simp only [step, Option.some.injEq] at hstep
    subst hstep
    cases file <;> exact ⟨hle, hiff⟩
  | uploadSettle i o =>
    simp only [step] at hstep
    cases hc : s.uploadCalls[i]? with
    | none => rw [hc] at hstep; exact Option.noConfusion hstep
    | some f =>
      rw [hc] at hstep
      simp only [Option.some.injEq] at hstep
      subst hstep
      cases o <;> exact ⟨hle, hiff⟩
  | dismiss =>
    simp only [step, Option.some.injEq] at hstep
    subst hstep
    exact ⟨hle, hiff⟩
  | elapse d =>
    simp only [step, Option.some.injEq] at hstep
    subst hstep
    simp only [elapse, fireTimers_queryCalls, fireTimers_isLoading]
    exact ⟨hle, hiff⟩

/-- The serialization invariant is preserved along every run. -/
theorem run_serialized (es : List Event) (s s' : State) (hrun : run s es = some s')
    (hinv : s.queryCalls.length ≤ 1 ∧ (s.isLoading = true ↔ s.queryCalls.length = 1)) :
    s'.queryCalls.length ≤ 1 ∧ (s'.isLoading = true ↔ s'.queryCalls.length = 1) := by
  induction es generalizing s with
  | nil =>
    simp only [run, Option.some.injEq] at hrun
    subst hrun
    exact hinv
  | cons e es ih =>
    simp only [run] at hrun
    cases hs : step s e with
    | none => rw [hs] at hrun; exact Option.noConfusion hrun
    | some s1 =>
      rw [hs] at hrun
      exact ih s1 hrun (step_serialized s s1 e hs hinv)

/-- The submit handler never shortens the transcript. -/
theorem handleSendMessage_extends (s : State) :
    s.messages <+: (handleSendMessage s).messages := by
  cases hg : (!truthy (jsTrim s.inputMessage) || s.isLoading)
  · rw [handleSendMessage_of_pass s hg]
    exact List.prefix_append _ _
  · rw [handleSendMessage_of_guard s hg]

/-- Every transition keeps the old transcript as a prefix of the new one. -/
theorem step_extends (s s' : State) (e : Event) (hstep : step s e = some s') :
    s.messages <+: s'.messages := by
  cases e with
  | editDraft v =>
    simp only [step, Option.some.injEq] at hstep
    subst hstep
    exact List.prefix_refl _
  | submit =>
    simp only [step, Option.some.injEq] at hstep
    subst hstep
    exact handleSendMessage_extends s
  | querySettle i o =>
    simp only [step] at hstep
    cases hc : s.queryCalls[i]? with
    | none => rw [hc] at hstep; exact Option.noConfusion hstep
    | some c =>
      rw [hc] at hstep
      simp only [Option.some.injEq] at hstep
      subst hstep
      cases o <;> exact List.prefix_append _ _
  | upload file =>
    simp only [step, Option.some.injEq] at hstep
    subst hstep
    cases file <;> exact List.prefix_refl _
  | uploadSettle i o =>
    simp only [step] at hstep
    cases hc : s.uploadCalls[i]? with
    | none => rw [hc] at hstep; exact Option.noConfusion hstep
    | some f =>
      rw [hc] at hstep
      simp only [Option.some.injEq] at hstep
      subst hstep
      cases o
      · exact List.prefix_append _ _
      · exact List.prefix_refl _
  | dismiss =>
    simp only [step, Option.some.injEq] at hstep
    subst hstep
    exact List.prefix_refl _
  | elapse d =>
    simp only [step, Option.some.injEq] at hstep
    subst hstep
    simp only [elapse, fireTimers_messages]
    exact List.prefix_refl _

/-- Every run keeps the starting transcript as a prefix of the final one. -/
theorem run_extends (es : List Event) (s s' : State) (hrun : run s es = some s') :
    s.messages <+: s'.messages := by
  induction es generalizing s with
  | nil =>
    simp only [run, Option.some.injEq] at hrun
    subst hrun
    exact List.prefix_refl _
  | cons e es ih =>
    simp only [run] at hrun
    cases hs : step s e with
    | none => rw [hs] at hrun; exact Option.noConfusion hrun
    | some s1 =>
      rw [hs] at hrun
      exact (step_extends s s1 e hs).trans (ih s1 hrun)

/-- While a query is pending and nothing settles it, its call stays the one
outstanding call. -/
theorem run_keeps_pending_call (es : List Event) (s s' : State)
    (hrun : run s es = some s') (hno : ∀ e ∈ es, Event.settlesQuery e = false)
    (hl : s.isLoading = true) :
    s'.isLoading = true ∧ s'.queryCalls = s.queryCalls := by
  induction es generalizing s with
  | nil =>
    simp only [run, Option.some.injEq] at hrun
    subst hrun
    exact ⟨hl, rfl⟩
  | cons e es ih =>
    simp only [run] at hrun
    cases hs : step s e with
    | none => rw [hs] at hrun; exact Option.noConfusion hrun
    | some s1 =>
      rw [hs] at hrun
      have he := hno e (List.mem_cons_self _ _)
      have hes : ∀ x ∈ es, Event.settlesQuery x = false :=
        fun x hx => hno x (List.mem_cons_of_mem _ hx)
      have h1 : s1.isLoading = true ∧ s1.queryCalls = s.queryCalls := by
        cases e with
        | editDraft v =>
          simp only [step, Option.some.injEq] at hs
          subst hs
          exact ⟨hl, rfl⟩
        | submit =>
          simp only [step, Option.some.injEq] at hs
          subst hs
          rw [handleSendMessage_of_guard s (by simp [hl])]
          exact ⟨hl, rfl⟩
        | querySettle i o => simp [Event.settlesQuery] at he
        | upload file =>
          simp only [step, Option.some.injEq] at hs
          subst hs
          cases file <;> exact ⟨hl, rfl⟩
        | uploadSettle i o =>
          simp only [step] at hs
          cases hc : s.uploadCalls[i]? with
          | none => rw [hc] at hs; exact Option.noConfusion hs
          | some f =>
            rw [hc] at hs
            simp only [Option.some.injEq] at hs
            subst hs
            cases o <;> exact ⟨hl, rfl⟩
        | dismiss =>
          simp only [step, Option.some.injEq] at hs
          subst hs
          exact ⟨hl, rfl⟩
        | elapse d =>
          simp only [step, Option.some.injEq] at hs
          subst hs
          simp only [elapse, fireTimers_queryCalls, fireTimers_isLoading]
          exact ⟨hl, trivial⟩
      obtain ⟨h2, h3⟩ := ih s1 hrun hes h1.1
      exact ⟨h2, h3.trans h1.2⟩

/-- The settle step of a query appends the settle entry. -/
theorem step_querySettle_messages (s s' : State) (i : Nat) (o : Outcome QueryResponse)
    (hstep : step s (.querySettle i o) = some s') :
    s'.messages = s.messages ++ [settleEntry o s.now] := by
  simp only [step] at hstep
  cases hc : s.queryCalls[i]? with
  | none => rw [hc] at hstep; exact Option.noConfusion hstep
  | some c =>
    rw [hc] at hstep
    simp only [Option.some.injEq] at hstep
    subst hstep
    cases o <;> rfl

/-- The serialization invariant holds in every reachable state. -/
theorem reachable_serialized_aux (s : State) (h : Reachable s) :
    s.queryCalls.length ≤ 1 ∧ (s.isLoading = true ↔ s.queryCalls.length = 1) := by
  obtain ⟨es, hrun⟩ := h
  exact run_serialized es init s hrun ⟨by decide, by decide⟩

/-! ### Clock and timer queue -/

theorem fireTimers_status_of_none (s : State) (h : s.uploadStatus = none) :
    (fireTimers s).uploadStatus = none := by
  unfold fireTimers; split
  · rfl
  · exact h

theorem fireTimers_of_due (s : State) (d : Nat) (hd : d ∈ s.timers) (hle : d ≤ s.now) :
    (fireTimers s).uploadStatus = none := by
  have hany : s.timers.any (fun d => decide (d ≤ s.now)) = true :=
    List.any_eq_true.mpr ⟨d, hd, by simpa using hle⟩
  simp only [fireTimers, hany, if_true]

theorem fireTimers_keeps_later (s : State) (d : Nat) (hd : d ∈ s.timers) (hlt : s.now < d) :
    d ∈ (fireTimers s).timers := by
  unfold fireTimers; split
  · exact List.mem_filter.mpr ⟨hd, by simpa using hlt⟩
  · exact hd

theorem fireTimers_of_empty (s : State) (h : s.timers = []) : fireTimers s = s := by
  simp [fireTimers, h]

/-- A transition moves the clock forward by the time of an `elapse` event and
not at all otherwise. -/
theorem step_now (s s' : State) (e : Event) (hstep : step s e = some s') :
    s'.now = s.now + elapsed [e] := by
  cases e with
  | editDraft v =>
    simp only [step, Option.some.injEq] at hstep
    subst hstep; rfl
  | submit =>
    simp only [step, Option.some.injEq] at hstep
    subst hstep
    cases hg : (!truthy (jsTrim s.inputMessage) || s.isLoading)
    · rw [handleSendMessage_of_pass s hg]; rfl
    · rw [handleSendMessage_of_guard s hg]; rfl
  | querySettle i o =>
    simp only [step] at hstep
    cases hc : s.queryCalls[i]? with
    | none => rw [hc] at hstep; exact Option.noConfusion hstep
    | some c =>
      rw [hc] at hstep
      simp only [Option.some.injEq] at hstep
      subst hstep
      cases o <;> rfl
  | upload file =>
    simp only [step, Option.some.injEq] at hstep
    subst hstep
    cases file <;> rfl
  | uploadSettle i o =>
    simp only [step] at hstep
    cases hc : s.uploadCalls[i]? with
    | none => rw [hc] at hstep; exact Option.noConfusion hstep
    | some f =>
      rw [hc] at hstep
      simp only [Option.some.injEq] at hstep
      subst hstep
      cases o <;> rfl
  | dismiss =>
    simp only [step, Option.some.injEq] at hstep
    subst hstep; rfl
  | elapse d =>
    simp only [step, Option.some.injEq] at hstep
    subst hstep
    simp [elapse, fireTimers_now, elapsed]

theorem elapsed_cons (e : Event) (es : List Event) :
    elapsed (e :: es) = elapsed [e] + elapsed es := by
  cases e <;> simp [elapsed]

/-- The clock at the end of a run is the starting clock plus the elapsed time. -/
theorem run_now (es : List Event) (s s' : State) (hrun : run s es = some s') :
    s'.now = s.now + elapsed es := by
  induction es generalizing s with
  | nil =>
    simp only [run, Option.some.injEq] at hrun
    subst hrun; rfl
  | cons e es ih =>
    simp only [run] at hrun
    cases hs : step s e with
    | none => rw [hs] at hrun; exact Option.noConfusion hrun
    | some s1 =>
      rw [hs] at hrun
      rw [ih s1 hrun, step_now s s1 e hs, elapsed_cons e es, Nat.add_assoc]

/-- A queued deadline that has not been reached stays queued, whatever happens. -/
theorem step_keeps_timer (s s' : State) (e : Event) (d : Nat)
    (hstep : step s e = some s') (hd : d ∈ s.timers) (hlt : s'.now < d) :
    d ∈ s'.timers := by
  cases e with
  | editDraft v =>
    simp only [step, Option.some.injEq] at hstep
    subst hstep; exact hd
  | submit =>
    simp only [step, Option.some.injEq] at hstep
    subst hstep
    cases hg : (!truthy (jsTrim s.inputMessage) || s.isLoading)
    · rw [handleSendMessage_of_pass s hg]; exact hd
    · rw [handleSendMessage_of_guard s hg]; exact hd
  | querySettle i o =>
    simp only [step] at hstep
    cases hc : s.queryCalls[i]? with
    | none => rw [hc] at hstep; exact Option.noConfusion hstep
    | some c =>
      rw [hc] at hstep
      simp only [Option.some.injEq] at hstep
      subst hstep
      cases o <;> exact hd
  | upload file =>
    simp only [step, Option.some.injEq] at hstep
    subst hstep
    cases file <;> exact hd
  | uploadSettle i o =>
    simp only [step] at hstep
    cases hc : s.uploadCalls[i]? with
    | none => rw [hc] at hstep; exact Option.noConfusion hstep
    | some f =>
      rw [hc] at hstep
      simp only [Option.some.injEq] at hstep
      subst hstep
      cases o
      · exact List.mem_append_left _ hd
      · exact hd
  | dismiss =>
    simp only [step, Option.some.injEq] at hstep
    subst hstep; exact hd
  | elapse k =>
    simp only [step, Option.some.injEq] at hstep
    subst hstep
    simp only [elapse, fireTimers_now] at hlt
    exact fireTimers_keeps_later _ d hd hlt

/-- A queued deadline stays queued along a run that ends before it. -/
theorem run_keeps_timer (es : List Event) (s s' : State) (d : Nat)
    (hrun : run s es = some s') (hd : d ∈ s.timers) (hlt : s'.now < d) :
    d ∈ s'.timers := by
  induction es generalizing s with
  | nil =>
    simp only [run, Option.some.injEq] at hrun
    subst hrun; exact hd
  | cons e es ih =>
    simp only [run] at hrun
    cases hs : step s e with
    | none => rw [hs] at hrun; exact Option.noConfusion hrun
    | some s1 =>
      rw [hs] at hrun
      have h1 : s1.now < d := by
        have := run_now es s1 s' hrun
        omega
      exact ih s1 hrun (step_keeps_timer s s1 e d hs hd h1)

/-- Without a new banner being written, "the banner is absent, or the deadline
`d` is queued and still ahead" is preserved by a transition. -/
theorem step_clear_pending (s s' : State) (e : Event) (d : Nat)
    (hstep : step s e = some s') (hno : Event.setsStatus e = false)
    (hinv : s.uploadStatus = none ∨ (d ∈ s.timers ∧ s.now < d)) :
    s'.uploadStatus = none ∨ (d ∈ s'.timers ∧ s'.now < d) := by
  cases e with
  | editDraft v =>
    simp only [step, Option.some.injEq] at hstep
    subst hstep; exact hinv
  | submit =>
    simp only [step, Option.some.injEq] at hstep
    subst hstep
    cases hg : (!truthy (jsTrim s.inputMessage) || s.isLoading)
    · rw [handleSendMessage_of_pass s hg]; exact hinv
    · rw [handleSendMessage_of_guard s hg]; exact hinv
  | querySettle i o =>
    simp only [step] at hstep
    cases hc : s.queryCalls[i]? with
    | none => rw [hc] at hstep; exact Option.noConfusion hstep
    | some c =>
      rw [hc] at hstep
      simp only [Option.some.injEq] at hstep
      subst hstep
      cases o <;> exact hinv
  | upload file => simp [Event.setsStatus] at hno
  | uploadSettle i o => simp [Event.setsStatus] at hno
  | dismiss =>
    simp only [step, Option.some.injEq] at hstep
    subst hstep; exact Or.inl rfl
  | elapse k =>
    simp only [step, Option.some.injEq] at hstep
    subst hstep
    rcases hinv with h | ⟨hd, hlt⟩
    · exact Or.inl (fireTimers_status_of_none _ h)
    · rcases Nat.lt_or_ge (s.now + k) d with h | h
      · refine Or.inr ⟨fireTimers_keeps_later _ d hd h, ?_⟩
        simp only [elapse, fireTimers_now]; exact h
      · exact Or.inl (fireTimers_of_due _ d hd h)

/-- Once the deadline `d` is queued and ahead, a run that writes no new banner
and reaches time `d` ends with the banner absent. -/
theorem run_clears_at_deadline (es : List Event) (s s' : State) (d : Nat)
    (hrun : run s es = some s') (hno : ∀ e ∈ es, Event.setsStatus e = false)
    (hd : d ∈ s.timers) (hlt : s.now < d) (hreach : d ≤ s'.now) :
    s'.uploadStatus = none := by
  have key : ∀ (es : List Event) (s : State), run s es = some s' →
      (∀ e ∈ es, Event.setsStatus e = false) →
      (s.uploadStatus = none ∨ (d ∈ s.timers ∧ s.now < d)) →
      (s'.uploadStatus = none ∨ (d ∈ s'.timers ∧ s'.now < d)) := by
    intro es
    induction es with
    | nil =>
      intro s hrun _ hinv
      simp only [run, Option.some.injEq] at hrun
      subst hrun; exact hinv
    | cons e es ih =>
      intro s hrun hno hinv
      simp only [run] at hrun
      cases hs : step s e with
      | none => rw [hs] at hrun; exact Option.noConfusion hrun
      | some s1 =>
        rw [hs] at hrun
        exact ih s1 hrun (fun x hx => hno x (List.mem_cons_of_mem _ hx))
          (step_clear_pending s s1 e d hs (hno e (List.mem_cons_self _ _)) hinv)
  rcases key es s hrun hno (Or.inr ⟨hd, hlt⟩) with h | ⟨_, h⟩
  · exact h
  · omega

/-- With no timer queued, a run that neither writes nor closes the banner
leaves it as it is. -/
theorem run_status_persists (es : List Event) (s s' : State)
    (hrun : run s es = some s')
    (hno : ∀ e ∈ es, Event.setsStatus e = false ∧ Event.closesStatus e = false)
    (ht : s.timers = []) :
    s'.uploadStatus = s.uploadStatus := by
  induction es generalizing s with
  | nil =>
    simp only [run, Option.some.injEq] at hrun
    subst hrun; rfl
  | cons e es ih =>
    simp only [run] at hrun
    cases hs : step s e with
    | none => rw [hs] at hrun; exact Option.noConfusion hrun
    | some s1 =>
      rw [hs] at hrun
      have he := hno e (List.mem_cons_self _ _)
      have h1 : s1.timers = [] ∧ s1.uploadStatus = s.uploadStatus := by
        cases e with
        | editDraft v =>
          simp only [step, Option.some.injEq] at hs
          subst hs; exact ⟨ht, rfl⟩
        | submit =>
          simp only [step, Option.some.injEq] at hs
          subst hs
          cases hg : (!truthy (jsTrim s.inputMessage) || s.isLoading)
          · rw [handleSendMessage_of_pass s hg]; exact ⟨ht, rfl⟩
          · rw [handleSendMessage_of_guard s hg]; exact ⟨ht, rfl⟩
        | querySettle i o =>
          simp only [step] at hs
          cases hc : s.queryCalls[i]? with
          | none => rw [hc] at hs; exact Option.noConfusion hs
          | some c =>
            rw [hc] at hs
            simp only [Option.some.injEq] at hs
            subst hs
            cases o <;> exact ⟨ht, rfl⟩
        | upload file => simp [Event.setsStatus] at he
        | uploadSettle i o => simp [Event.setsStatus] at he
        | dismiss => simp [Event.closesStatus] at he
        | elapse k =>
          simp only [step, Option.some.injEq] at hs
          subst hs
          have : elapse s k = { s with now := s.now + k } := by
            simp only [elapse]
            exact fireTimers_of_empty _ ht
          rw [this]; exact ⟨ht, rfl⟩
      rw [ih s1 hrun (fun x hx => hno x (List.mem_cons_of_mem _ hx)) h1.1, h1.2]

/-- The settle step of an upload in flight runs its continuation. -/
theorem step_uploadSettle_of_call (s : State) (i : Nat) (f : File)
    (o : Outcome UploadResponse) (h : s.uploadCalls[i]? = some f) :
    step s (.uploadSettle i o) =
      some (settleUpload { s with uploadCalls := s.uploadCalls.eraseIdx i } f o) := by
  simp only [step, h]

/-- A run made only of draft edits, upload starts, dismissals and the passing
of time leaves the transcript as it is. -/
theorem run_messages_of_no_append (es : List Event) (s s' : State)
    (hrun : run s es = some s') (hno : ∀ x ∈ es, Event.mayAppend x = false) :
    s'.messages = s.messages := by
  induction es generalizing s with
  | nil =>
    simp only [run, Option.some.injEq] at hrun
    subst hrun; rfl
  | cons e es ih =>
    simp only [run] at hrun
    cases hs : step s e with
    | none => rw [hs] at hrun; exact Option.noConfusion hrun
    | some s1 =>
      rw [hs] at hrun
      have he := hno e (List.mem_cons_self _ _)
      have h1 : s1.messages = s.messages := by
        cases e with
        | editDraft v =>
          simp only [step, Option.some.injEq] at hs
          subst hs; rfl
        | submit => simp [Event.mayAppend] at he
        | querySettle i o => simp [Event.mayAppend] at he
        | upload file =>
          simp only [step, Option.some.injEq] at hs
          subst hs
          cases file <;> rfl
        | uploadSettle i o => simp [Event.mayAppend] at he
        | dismiss =>
          simp only [step, Option.some.injEq] at hs
          subst hs; rfl
        | elapse k =>
          simp only [step, Option.some.injEq] at hs
          subst hs
          simp only [elapse, fireTimers_messages]
      rw [ih s1 hrun (fun x hx => hno x (List.mem_cons_of_mem _ hx)), h1]

/-! ## Submit guard (C1, C2) -/

/-- C1: when the trimmed draft is empty or a query is pending, submit is a
no-op: the handler returns the state it was given, so the transcript, the
draft, the pending flag and the banner are unchanged and the list of
outstanding query calls does not grow. -/
theorem submit_rejected_is_noop (s : State) (text : String)
    (h : jsTrim text = "" ∨ s.isLoading = true) :
    handleSendMessage { s with inputMessage := text } = { s with inputMessage := text } ∧
    (handleSendMessage { s with inputMessage := text }).messages = s.messages ∧
    (handleSendMessage { s with inputMessage := text }).inputMessage = text ∧
    (handleSendMessage { s with inputMessage := text }).isLoading = s.isLoading ∧
    (handleSendMessage { s with inputMessage := text }).uploadStatus = s.uploadStatus ∧
    (handleSendMessage { s with inputMessage := text }).queryCalls = s.queryCalls := by
  have hg : (!truthy (jsTrim text) || s.isLoading) = true := by
    rcases h with h | h
    · simp [truthy, h]
    · simp [h]
  have hs : handleSendMessage { s with inputMessage := text } =
      { s with inputMessage := text } := by
    simp only [handleSendMessage, hg, if_true]
  rw [hs]
  exact ⟨rfl, rfl, rfl, rfl, rfl, rfl⟩

/-- Witness for C1: a draft of blanks (with a no-break space) in the initial
state, and a real draft while a query is pending. -/
theorem submit_rejected_is_noop_witness :
    (jsTrim " \t\u00A0\n" = "" ∨ init.isLoading = true) ∧
    (handleSendMessage { init with inputMessage := " \t\u00A0\n" }).queryCalls = [] ∧
    (handleSendMessage { init with isLoading := true, inputMessage := "hello" }).messages = [] :=
  ⟨Or.inl (by decide),
   (submit_rejected_is_noop init " \t\u00A0\n" (Or.inl (by decide))).2.2.2.2.2,
   (submit_rejected_is_noop { init with isLoading := true } "hello" (Or.inr rfl)).2.1⟩

/-- C2: with no query pending and a draft whose trimmed form `t` is non-empty,
the part of submit that runs before the call settles appends one `user` entry
with text `t`, empties the draft, raises the pending flag and issues one query
call with body `query = t`; whichever way that call settles, the draft is
still empty afterwards. -/
theorem submit_accepted_effects (s : State) (text : String)
    (hl : s.isLoading = false) (ht : jsTrim text ≠ "") :
    (handleSendMessage { s with inputMessage := text }).messages =
      s.messages ++ [userEntry (jsTrim text) s.now] ∧
    (handleSendMessage { s with inputMessage := text }).inputMessage = "" ∧
    (handleSendMessage { s with inputMessage := text }).isLoading = true ∧
    (handleSendMessage { s with inputMessage := text }).queryCalls =
      s.queryCalls ++ [{ query := jsTrim text }] ∧
    (∀ o : Outcome QueryResponse,
      (settleQuery (handleSendMessage { s with inputMessage := text }) o).inputMessage = "") := by
  have hg : (!truthy (jsTrim text) || s.isLoading) = false := by
    simp [truthy, hl, ht]
  have hs : handleSendMessage { s with inputMessage := text } =
      { s with
        inputMessage := ""
        messages := s.messages ++ [userEntry (jsTrim text) s.now]
        isLoading := true
        queryCalls := s.queryCalls ++ [{ query := jsTrim text }] } := by
    simp [handleSendMessage, hg, userEntry]
  rw [hs]
  refine ⟨rfl, rfl, rfl, rfl, ?_⟩
  intro o
  cases o <;> rfl

/-- Witness for C2: the draft `"  hello \n"` in the initial state. -/
theorem submit_accepted_effects_witness :
    (handleSendMessage { init with inputMessage := "  hello \n" }).queryCalls =
      [{ query := "hello" }] :=
  (submit_accepted_effects init "  hello \n" rfl (by decide)).2.2.2.1

/-! ## Query settle (C3, C4) -/

/-- C3: when a query in flight resolves with `{answer, tool_used,
execution_time_ms}`, the settle step is enabled and appends exactly one
`agent` entry at the end of the transcript whose `text`, `tool` and `time`
are the three response fields unchanged (a missing field stays missing), and
it lowers the pending flag. -/
theorem query_resolved_appends_answer (s : State) (i : Nat) (c : QueryCall)
    (r : QueryResponse) (h : s.queryCalls[i]? = some c) :
    ∃ s', step s (.querySettle i (.resolved r)) = some s' ∧
      s'.messages = s.messages ++ [answerEntry r s.now] ∧
      (answerEntry r s.now).type = .agent ∧
      (answerEntry r s.now).text = r.answer ∧
      (answerEntry r s.now).tool = r.tool_used ∧
      (answerEntry r s.now).time = r.execution_time_ms ∧
      s'.isLoading = false := by
  refine ⟨handleSendMessageResolved { s with queryCalls := s.queryCalls.eraseIdx i } r,
    ?_, rfl, rfl, rfl, rfl, rfl, rfl⟩
  simp [step, h, settleQuery]

/-- Witness for C3: the question "What is the revenue?" answered with
`$5M` by `qa_tool` in 120 ms. -/
theorem query_resolved_appends_answer_witness :
    ∃ s', step (handleSendMessage { init with inputMessage := "What is the revenue?" })
        (.querySettle 0 (.resolved revenueAnswer)) = some s' ∧
      s'.messages =
        [userEntry "What is the revenue?" 0,
         { type := .agent, text := "$5M", tool := some "qa_tool", time := some 120,
           timestamp := 0 }] ∧
      s'.isLoading = false := by
  obtain ⟨s', h1, h2, -, -, -, -, h3⟩ :=
    query_resolved_appends_answer
      (handleSendMessage { init with inputMessage := "What is the revenue?" }) 0
      { query := "What is the revenue?" } revenueAnswer (by decide)
  exact ⟨s', h1, by rw [h2]; decide, h3⟩

/-- C4 (as amended): when a query in flight is rejected, the settle step is
still enabled (the failure is caught) and appends exactly one `agent` entry
without tool or time whose text is non-empty; the text is `Error: ` followed
by the backend's `detail` when that is a non-empty string, and `Error: `
followed by `error.message` when `detail` is missing or empty; the pending
flag is lowered. -/
theorem query_rejected_appends_error (s : State) (i : Nat) (c : QueryCall)
    (e : AxiosError) (h : s.queryCalls[i]? = some c) :
    ∃ s', step s (.querySettle i (.rejected e)) = some s' ∧
      s'.messages = s.messages ++ [errorEntry e s.now] ∧
      (errorEntry e s.now).type = .agent ∧
      (errorEntry e s.now).tool = none ∧
      (errorEntry e s.now).time = none ∧
      (errorEntry e s.now).text ≠ "" ∧
      (∀ d, e.detail = some d → d ≠ "" → (errorEntry e s.now).text = "Error: " ++ d) ∧
      (e.detail = none ∨ e.detail = some "" →
        (errorEntry e s.now).text = "Error: " ++ e.message) ∧
      s'.isLoading = false := by
  refine ⟨handleSendMessageRejected { s with queryCalls := s.queryCalls.eraseIdx i } e,
    ?_, rfl, rfl, rfl, rfl, error_text_ne_empty _, ?_, ?_, rfl⟩
  · simp [step, h, settleQuery]
  · intro d hd hne
    simp [errorEntry, errorText, hd, jsOr_of_nonempty d e.message hne]
  · intro hd
    simp [errorEntry, errorText, jsOr_of_absent_or_empty e.detail e.message hd]

/-- Witness for C4: a query rejected by a transport failure without a body. -/
theorem query_rejected_appends_error_witness :
    ∃ s', step (handleSendMessage { init with inputMessage := "hi" })
        (.querySettle 0 (.rejected networkError)) = some s' ∧
      texts s' = ["hi", "Error: Network Error"] ∧ s'.isLoading = false := by
  obtain ⟨s', h1, h2, -, -, -, -, -, -, h3⟩ :=
    query_rejected_appends_error (handleSendMessage { init with inputMessage := "hi" }) 0
      { query := "hi" } networkError (by decide)
  exact ⟨s', h1, by rw [texts, h2]; decide, h3⟩

/-- C4 as stated fails: two rejections whose error body supplies the same
`detail` (the empty string) and whose `message` differs give different
transcript texts, both taken from `message` and neither from `detail`. -/
theorem query_rejected_empty_detail_counterexample :
    emptyDetailError.detail = some "" ∧
    ({ emptyDetailError with message := "timeout" } : AxiosError).detail = some "" ∧
    (run init [.editDraft "hi", .submit, .querySettle 0 (.rejected emptyDetailError)]).map texts =
      some ["hi", "Error: Request failed with status code 500"] ∧
    (run init [.editDraft "hi", .submit,
        .querySettle 0 (.rejected { emptyDetailError with message := "timeout" })]).map texts =
      some ["hi", "Error: timeout"] ∧
    "Error: Request failed with status code 500" ≠ "Error: " ++ "" := by
  decide

/-! ## Serialization of queries (C5) -/

/-- C5: in every state reachable from the initial session by any sequence of
draft edits, submits, query settles, upload starts, upload settles,
dismissals and timer firings, at most one query call is outstanding, and the
pending flag is raised exactly when one query call is outstanding. -/
theorem reachable_query_serialized (s : State) (h : Reachable s) :
    s.queryCalls.length ≤ 1 ∧ (s.isLoading = true ↔ s.queryCalls.length = 1) := by
  obtain ⟨es, hrun⟩ := h
  exact run_serialized es init s hrun ⟨by decide, by decide⟩

/-- Witness for C5: after two submits in a row, interleaved with an upload,
one query call is outstanding. -/
theorem reachable_query_serialized_witness :
    ∃ s, run init [.editDraft "first", .submit, .upload (some reportPdf),
        .editDraft "second", .submit, .elapse 10] = some s ∧
      s.queryCalls = [{ query := "first" }] ∧ s.isLoading = true ∧
      (s.queryCalls.length ≤ 1 ∧ (s.isLoading = true ↔ s.queryCalls.length = 1)) := by
  refine ⟨_, rfl, by decide, by decide, ?_⟩
  exact reachable_query_serialized _
    ⟨[.editDraft "first", .submit, .upload (some reportPdf),
      .editDraft "second", .submit, .elapse 10], rfl⟩

/-! ## Transcript order (C6) -/

/-- C6: every transition leaves the previous transcript as a prefix of the
new one; and when a submit is accepted in a reachable state and its query
settles after any further events, the call that settles is that submit's
call, its `user` entry sits at the index where it was appended, the `agent`
entry (answer or error) sits at the end, and the first index is strictly
smaller than the second. -/
theorem transcript_append_only_ordered :
    (∀ (s s' : State) (e : Event), step s e = some s' → s.messages <+: s'.messages) ∧
    (∀ (s s2 s3 : State) (es : List Event) (i : Nat) (o : Outcome QueryResponse),
      Reachable s → s.isLoading = false → jsTrim s.inputMessage ≠ "" →
      run (handleSendMessage s) es = some s2 →
      (∀ e ∈ es, Event.settlesQuery e = false) →
      step s2 (.querySettle i o) = some s3 →
      s2.queryCalls = [{ query := jsTrim s.inputMessage }] ∧ i = 0 ∧
      s3.messages[s.messages.length]? = some (userEntry (jsTrim s.inputMessage) s.now) ∧
      s3.messages[s2.messages.length]? = some (settleEntry o s2.now) ∧
      s3.messages.length = s2.messages.length + 1 ∧
      s.messages.length < s2.messages.length) := by
  refine ⟨step_extends, ?_⟩
  intro s s2 s3 es i o hreach hl ht hrun hno hstep
  have hg : (!truthy (jsTrim s.inputMessage) || s.isLoading) = false := by
    simp [truthy, hl, ht]
  have hinv := reachable_serialized_aux s hreach
  have h0 : s.queryCalls = [] := by
    have : ¬ s.queryCalls.length = 1 := fun h1 => by
      have := hinv.2.mpr h1
      rw [hl] at this
      exact Bool.noConfusion this
    exact List.length_eq_zero.mp (by omega)
  have hs1 := handleSendMessage_of_pass s hg
  have hkeep := run_keeps_pending_call es (handleSendMessage s) s2 hrun hno (by rw [hs1])
  have hq : s2.queryCalls = [{ query := jsTrim s.inputMessage }] := by
    rw [hkeep.2, hs1]
    simp [h0]
  have hi : i = 0 := by
    simp only [step] at hstep
    cases hc : s2.queryCalls[i]? with
    | none => rw [hc] at hstep; exact Option.noConfusion hstep
    | some c =>
      rcases Nat.lt_or_ge i s2.queryCalls.length with h | h
      · rw [hq] at h
        simpa using h
      · rw [List.getElem?_eq_none h] at hc; exact Option.noConfusion hc
  have hpre := run_extends es (handleSendMessage s) s2 hrun
  obtain ⟨rest, hrest⟩ := hpre
  have hm1 : (handleSendMessage s).messages =
      s.messages ++ [userEntry (jsTrim s.inputMessage) s.now] := by rw [hs1]
  have hm3 := step_querySettle_messages s2 s3 i o hstep
  have hm2 : s2.messages =
      s.messages ++ ([userEntry (jsTrim s.inputMessage) s.now] ++ rest) := by
    rw [← hrest, hm1, List.append_assoc]
  refine ⟨hq, hi, ?_, ?_, ?_, ?_⟩
  · rw [hm3, hm2, List.append_assoc, List.getElem?_append_right (Nat.le_refl _)]
    simp
  · rw [hm3, List.getElem?_append_right (Nat.le_refl _)]
    simp
  · rw [hm3]; simp
  · rw [hm2]; simp

/-- Witness for C6: "hi" is submitted in the initial session, an upload
starts and resolves while the query is pending, then the query is rejected. -/
theorem transcript_append_only_ordered_witness :
    ∃ s2 s3,
      run (handleSendMessage { init with inputMessage := "hi" })
        [.upload (some reportPdf), .elapse 40,
         .uploadSettle 0 (.resolved { chunks_created := .safe 14 })] = some s2 ∧
      step s2 (.querySettle 0 (.rejected networkError)) = some s3 ∧
      s3.messages[0]? = some (userEntry "hi" 0) ∧
      s3.messages[2]? = some (errorEntry networkError 40) ∧
      s3.messages.length = 3 := by
  refine ⟨_, _, rfl, rfl, ?_⟩
  have h := transcript_append_only_ordered.2 { init with inputMessage := "hi" } _ _
    [.upload (some reportPdf), .elapse 40,
     .uploadSettle 0 (.resolved { chunks_created := .safe 14 })] 0 (.rejected networkError)
    ⟨[.editDraft "hi"], rfl⟩ rfl (by decide) rfl (by decide) rfl
  exact ⟨h.2.2.1, h.2.2.2.1, h.2.2.2.2.1⟩

/-! ## Upload settle (C7, C8) -/

/-- C7: an upload of a file named `n` appends to the transcript exactly when
the backend call succeeds. Starting the upload leaves the transcript alone.
In every state in which the call for the file is in flight, whatever happened
since the upload started, a resolved settle appends exactly one `system` entry
whose text contains `n`, and a rejected settle, for every error, leaves the
transcript as it was and writes a banner of type `error`. So when the events
between start and settle are only draft edits, further upload starts,
dismissals and the passing of time, the transcript after a rejected settle
equals the transcript before the upload started. -/
theorem upload_appends_iff_success (s : State) (f : File) :
    (step s (.upload (some f)) = some (handleFileUpload s (some f)) ∧
      (handleFileUpload s (some f)).messages = s.messages ∧
      (handleFileUpload s (some f)).uploadCalls[s.uploadCalls.length]? = some f) ∧
    (∀ i : Nat, s.uploadCalls[i]? = some f →
      (∀ r : UploadResponse, ∃ s',
        step s (.uploadSettle i (.resolved r)) = some s' ∧
        s'.messages = s.messages ++ [systemEntry f s.now] ∧
        s'.messages ≠ s.messages ∧
        (systemEntry f s.now).type = .system ∧
        (∃ pre post, (systemEntry f s.now).text = pre ++ f.name ++ post)) ∧
      (∀ e : AxiosError, ∃ s',
        step s (.uploadSettle i (.rejected e)) = some s' ∧
        s'.messages = s.messages ∧
        s'.uploadStatus.map UploadStatus.type = some .error)) ∧
    (∀ (es : List Event) (sa : State) (i : Nat),
      run (handleFileUpload s (some f)) es = some sa →
      sa.uploadCalls[i]? = some f →
      (∀ r : UploadResponse, ∃ s',
        step sa (.uploadSettle i (.resolved r)) = some s' ∧
        s'.messages = sa.messages ++ [systemEntry f sa.now] ∧
        s.messages <+: sa.messages) ∧
      (∀ e : AxiosError, ∃ s',
        step sa (.uploadSettle i (.rejected e)) = some s' ∧
        s'.messages = sa.messages ∧
        s'.uploadStatus.map UploadStatus.type = some .error ∧
        ((∀ x ∈ es, Event.mayAppend x = false) → s'.messages = s.messages))) ∧
    (∀ r : UploadResponse, ∃ s',
      step (handleFileUpload s (some f))
        (.uploadSettle s.uploadCalls.length (.resolved r)) = some s' ∧
      s'.messages = s.messages ++ [systemEntry f s.now] ∧
      s'.messages ≠ s.messages) ∧
    (∀ e : AxiosError, ∃ s',
      step (handleFileUpload s (some f))
        (.uploadSettle s.uploadCalls.length (.rejected e)) = some s' ∧
      s'.messages = s.messages ∧
      s'.uploadStatus.map UploadStatus.type = some .error) := by
  have hcall : (handleFileUpload s (some f)).uploadCalls[s.uploadCalls.length]? = some f := by
    simp [handleFileUpload]
  have hgrow : ∀ (t : State) (m : Message), t.messages ++ [m] ≠ t.messages := by
    intro t m h
    have := congrArg List.length h
    simp at this
  refine ⟨⟨rfl, rfl, hcall⟩, ?_, ?_, ?_, ?_⟩
  · intro i hi
    constructor
    · intro r
      exact ⟨_, step_uploadSettle_of_call s i f _ hi, rfl, hgrow s _, rfl,
        "Document \"",
        "\" uploaded and processed through RAG pipeline. Ready for queries!", rfl⟩
    · intro e
      exact ⟨_, step_uploadSettle_of_call s i f _ hi, rfl, rfl⟩
  · intro es sa i hrun hi
    constructor
    · intro r
      exact ⟨_, step_uploadSettle_of_call sa i f _ hi, rfl,
        run_extends es (handleFileUpload s (some f)) sa hrun⟩
    · intro e
      refine ⟨_, step_uploadSettle_of_call sa i f _ hi, rfl, rfl, ?_⟩
      intro hno
      exact run_messages_of_no_append es (handleFileUpload s (some f)) sa hrun hno
  · intro r
    exact ⟨_, step_uploadSettle_of_call _ _ f _ hcall, rfl, hgrow s _⟩
  · intro e
    exact ⟨_, step_uploadSettle_of_call _ _ f _ hcall, rfl, rfl⟩

/-- Witness for C7: `report.pdf` starts uploading in the initial session, the
`info` banner is closed by hand and a second passes, then the call is
rejected by a transport failure: the transcript is still empty and the banner
shows an error. -/
theorem upload_appends_iff_success_witness :
    ∃ s', step uploadDismissed (.uploadSettle 0 (.rejected networkError)) = some s' ∧
      s'.messages = uploadDismissed.messages ∧
      s'.uploadStatus.map UploadStatus.type = some .error ∧
      s'.messages = [] := by
  obtain ⟨s', h1, h2, h3, h4⟩ :=
    ((upload_appends_iff_success init reportPdf).2.2.1 [.dismiss, .elapse 1000]
      uploadDismissed 0 rfl (by decide)).2 networkError
  exact ⟨s', h1, h2, h3, h4 (by decide)⟩

/-- C8 (as amended): in every state in which the call for a file is in
flight, when the upload resolves with `chunks_created = k`, a non-negative
integer not above 2^53 - 1, the banner becomes exactly `success` with the
message `✅ Document processed! <k> chunks stored in vector database.`, `<k>`
in decimal digits (for any other number the same sentence carries the text
that the template literal prints for it); when the upload is rejected with a
non-empty `detail = d` the banner becomes exactly `error` with the message
`❌ Error: <d>`; and when `detail` is missing or empty the message is
`❌ Error: ` followed by `error.message`. -/
theorem upload_settle_status (s : State) (i : Nat) (f : File)
    (h : s.uploadCalls[i]? = some f) :
    (∀ k : Fin (maxSafeInteger + 1), ∃ s',
      step s (.uploadSettle i (.resolved { chunks_created := .safe k })) = some s' ∧
      s'.uploadStatus =
        some { type := .success
               message := "✅ Document processed! " ++ Nat.repr k.val ++
                 " chunks stored in vector database." }) ∧
    (∀ printed : String, ∃ s',
      step s (.uploadSettle i (.resolved { chunks_created := .other printed })) = some s' ∧
      s'.uploadStatus =
        some { type := .success
               message := "✅ Document processed! " ++ printed ++
                 " chunks stored in vector database." }) ∧
    (∀ (e : AxiosError) (d : String), e.detail = some d → d ≠ "" → ∃ s',
      step s (.uploadSettle i (.rejected e)) = some s' ∧
      s'.uploadStatus = some { type := .error, message := "❌ Error: " ++ d }) ∧
    (∀ e : AxiosError, e.detail = none ∨ e.detail = some "" → ∃ s',
      step s (.uploadSettle i (.rejected e)) = some s' ∧
      s'.uploadStatus = some { type := .error, message := "❌ Error: " ++ e.message }) := by
  refine ⟨?_, ?_, ?_, ?_⟩
  · intro k
    exact ⟨_, step_uploadSettle_of_call s i f _ h, rfl⟩
  · intro printed
    exact ⟨_, step_uploadSettle_of_call s i f _ h, rfl⟩
  · intro e d hd hne
    refine ⟨_, step_uploadSettle_of_call s i f _ h, ?_⟩
    simp [settleUpload, handleFileUploadRejected, errorText, hd,
      jsOr_of_nonempty d e.message hne]
  · intro e hd
    refine ⟨_, step_uploadSettle_of_call s i f _ h, ?_⟩
    simp [settleUpload, handleFileUploadRejected, errorText,
      jsOr_of_absent_or_empty e.detail e.message hd]

/-- Witness for C8: the upload of `report.pdf` is in flight and resolves with
14 chunks, resolves with a count that prints as `1e+21`, is rejected with the
body `{detail: "unsupported format"}`, or is rejected with no body at all. -/
theorem upload_settle_status_witness :
    (∃ s', step (handleFileUpload init (some reportPdf))
        (.uploadSettle 0 (.resolved { chunks_created := .safe 14 })) = some s' ∧
      s'.uploadStatus =
        some { type := .success
               message := "✅ Document processed! 14 chunks stored in vector database." }) ∧
    (∃ s', step (handleFileUpload init (some reportPdf))
        (.uploadSettle 0 (.resolved { chunks_created := .other "1e+21" })) = some s' ∧
      s'.uploadStatus =
        some { type := .success
               message := "✅ Document processed! 1e+21 chunks stored in vector database." }) ∧
    (∃ s', step (handleFileUpload init (some reportPdf))
        (.uploadSettle 0 (.rejected unsupportedFormatError)) = some s' ∧
      s'.uploadStatus = some { type := .error, message := "❌ Error: unsupported format" }) ∧
    (∃ s', step (handleFileUpload init (some reportPdf))
        (.uploadSettle 0 (.rejected networkError)) = some s' ∧
      s'.uploadStatus = some { type := .error, message := "❌ Error: Network Error" }) := by
  have hw := upload_settle_status (handleFileUpload init (some reportPdf)) 0 reportPdf rfl
  refine ⟨?_, ?_, ?_, ?_⟩
  · obtain ⟨s', h1, h2⟩ := hw.1 14
    exact ⟨s', h1, h2.trans (by decide)⟩
  · obtain ⟨s', h1, h2⟩ := hw.2.1 "1e+21"
    exact ⟨s', h1, h2.trans (by decide)⟩
  · obtain ⟨s', h1, h2⟩ := hw.2.2.1 unsupportedFormatError "unsupported format" rfl (by decide)
    exact ⟨s', h1, h2.trans (by decide)⟩
  · obtain ⟨s', h1, h2⟩ := hw.2.2.2 networkError (Or.inl rfl)
    exact ⟨s', h1, h2.trans (by decide)⟩

/-- C8 as stated fails: after `report.pdf` resolves with 14 chunks the banner
message is not `14 chunks stored`, and after a rejection with the body
`{detail: "unsupported format"}` it is not `unsupported format`. -/
theorem upload_settle_status_counterexample :
    (run init [.upload (some reportPdf),
        .uploadSettle 0 (.resolved { chunks_created := .safe 14 })]).map State.uploadStatus =
      some (some { type := .success
                   message := "✅ Document processed! 14 chunks stored in vector database." }) ∧
    (run init [.upload (some reportPdf),
        .uploadSettle 0 (.resolved { chunks_created := .safe 14 })]).map State.uploadStatus ≠
      some (some { type := .success, message := "14 chunks stored" }) ∧
    (run init [.upload (some reportPdf),
        .uploadSettle 0 (.rejected unsupportedFormatError)]).map State.uploadStatus =
      some (some { type := .error, message := "❌ Error: unsupported format" }) ∧
    (run init [.upload (some reportPdf),
        .uploadSettle 0 (.rejected unsupportedFormatError)]).map State.uploadStatus ≠
      some (some { type := .error, message := "unsupported format" }) := by
  decide

/-! ## Banner expiry (C9, C10) -/

/-- C9 (as amended): an upload that resolves at time `T` writes the `success`
banner and queues one timer for `T + 5000`; if no banner is written during
the following 5000 ms, the banner is absent at `T + 5000` and at every later
instant before the next write. Neither the `info` banner of an upload that
starts nor the `error` banner of an upload that is rejected queues a timer:
with no timer pending, such a banner stays until it is replaced or closed. -/
theorem success_banner_expires (s : State) (f : File) :
    (∀ r : UploadResponse,
      (handleFileUploadResolved s f r).uploadStatus = some (successStatus r) ∧
      (handleFileUploadResolved s f r).timers = s.timers ++ [s.now + 5000]) ∧
    (∀ (r : UploadResponse) (es : List Event) (s' : State),
      run (handleFileUploadResolved s f r) es = some s' →
      (∀ x ∈ es, Event.setsStatus x = false) →
      5000 ≤ elapsed es →
      s'.uploadStatus = none) ∧
    (handleFileUpload s (some f)).timers = s.timers ∧
    (∀ e : AxiosError, (handleFileUploadRejected s e).timers = s.timers) ∧
    (∀ (es : List Event) (s' : State), s.timers = [] →
      run (handleFileUpload s (some f)) es = some s' →
      (∀ x ∈ es, Event.setsStatus x = false ∧ Event.closesStatus x = false) →
      s'.uploadStatus = some { type := .info, message := "Uploading " ++ f.name ++ "..." }) ∧
    (∀ (e : AxiosError) (es : List Event) (s' : State), s.timers = [] →
      run (handleFileUploadRejected s e) es = some s' →
      (∀ x ∈ es, Event.setsStatus x = false ∧ Event.closesStatus x = false) →
      s'.uploadStatus = some (errorStatus e)) := by
  refine ⟨fun r => ⟨rfl, rfl⟩, ?_, rfl, fun e => rfl, ?_, ?_⟩
  · intro r es s' hrun hno hel
    have hnow := run_now es _ s' hrun
    have hbase : (handleFileUploadResolved s f r).now = s.now := rfl
    refine run_clears_at_deadline es _ s' (s.now + 5000) hrun hno ?_ ?_ ?_
    · exact List.mem_append_right _ (List.mem_singleton.mpr rfl)
    · rw [hbase]; omega
    · rw [hnow, hbase]; omega
  · intro es s' ht hrun hno
    rw [run_status_persists es _ s' hrun hno ht]
    rfl
  · intro e es s' ht hrun hno
    rw [run_status_persists es _ s' hrun hno ht]
    rfl

/-- Witness for C9: `report.pdf` resolves in the initial session; 5000 ms
later, after a query was submitted and answered meanwhile, the banner is
gone. -/
theorem success_banner_expires_witness :
    ∃ s', run (handleFileUploadResolved init reportPdf { chunks_created := .safe 14 })
        [.elapse 1000, .editDraft "hi", .submit, .elapse 3000,
         .querySettle 0 (.resolved revenueAnswer), .elapse 1000] = some s' ∧
      s'.now = 5000 ∧ s'.uploadStatus = none := by
  refine ⟨_, rfl, rfl, ?_⟩
  exact (success_banner_expires init reportPdf).2.1 { chunks_created := .safe 14 }
    [.elapse 1000, .editDraft "hi", .submit, .elapse 3000,
     .querySettle 0 (.resolved revenueAnswer), .elapse 1000] _ rfl (by decide) (by decide)

/-- C9 as stated fails for the `error` banner: an upload is rejected at time 0,
nothing else happens, and 5000 ms (even 60000 ms) later the banner still
shows the error. -/
theorem error_banner_expiry_counterexample :
    (run init [.upload (some reportPdf),
        .uploadSettle 0 (.rejected unsupportedFormatError)]).map
        (fun s => (s.now, s.uploadStatus.map UploadStatus.type, s.timers)) =
      some (0, some .error, []) ∧
    (run init [.upload (some reportPdf),
        .uploadSettle 0 (.rejected unsupportedFormatError), .elapse 5000]).map
        (fun s => (s.now, s.uploadStatus)) =
      some (5000, some { type := .error, message := "❌ Error: unsupported format" }) ∧
    (run init [.upload (some reportPdf),
        .uploadSettle 0 (.rejected unsupportedFormatError), .elapse 60000]).map
        (fun s => (s.now, s.uploadStatus)) =
      some (60000, some { type := .error, message := "❌ Error: unsupported format" }) := by
  decide

/-- C10 (as amended): a timer is never invalidated. When an upload resolves
at time `T` and, after any events that end before `T + 5000`, some event
writes a newer banner, then, if no further banner is written, the timer
queued at `T` clears that newer banner: at `T + 5000` and afterwards the
banner is absent. A newer `success` banner written at `T'` queues its own
timer for `T' + 5000`, which stays queued as long as the clock is below
`T' + 5000`. -/
theorem stale_timer_clears_newer_banner (s : State) (f : File) (r : UploadResponse) :
    (∀ (es1 es2 : List Event) (e : Event) (sa sb s3 : State),
      run (handleFileUploadResolved s f r) es1 = some sa →
      elapsed es1 < 5000 →
      Event.setsStatus e = true →
      step sa e = some sb →
      run sb es2 = some s3 →
      (∀ x ∈ es2, Event.setsStatus x = false) →
      5000 ≤ elapsed es1 + elapsed es2 →
      s3.uploadStatus = none) ∧
    (∀ (es2 : List Event) (j : Nat) (r2 : UploadResponse) (sa sb s3 : State),
      step sa (.uploadSettle j (.resolved r2)) = some sb →
      run sb es2 = some s3 →
      s3.now < sa.now + 5000 →
      sb.uploadStatus = some (successStatus r2) ∧ sa.now + 5000 ∈ s3.timers) := by
  constructor
  · intro es1 es2 e sa sb s3 hrun1 hlt _ hstep hrun2 hno hge
    have hbase : (handleFileUploadResolved s f r).now = s.now := rfl
    have hna := run_now es1 _ sa hrun1
    have hnb := step_now sa sb e hstep
    have hn3 := run_now es2 sb s3 hrun2
    have hel : elapsed [e] = 0 := by
      cases e <;> simp [elapsed, Event.setsStatus] at *
    have hta : s.now + 5000 ∈ sa.timers :=
      run_keeps_timer es1 _ sa (s.now + 5000) hrun1
        (List.mem_append_right _ (List.mem_singleton.mpr rfl)) (by rw [hna, hbase]; omega)
    have htb : s.now + 5000 ∈ sb.timers :=
      step_keeps_timer sa sb e (s.now + 5000) hstep hta (by rw [hnb, hna, hbase]; omega)
    exact run_clears_at_deadline es2 sb s3 (s.now + 5000) hrun2 hno htb
      (by rw [hnb, hna, hbase]; omega) (by rw [hn3, hnb, hna, hbase]; omega)
  · intro es2 j r2 sa sb s3 hstep hrun2 hlt
    simp only [step] at hstep
    cases hc : sa.uploadCalls[j]? with
    | none => rw [hc] at hstep; exact Option.noConfusion hstep
    | some g =>
      rw [hc] at hstep
      simp only [Option.some.injEq] at hstep
      subst hstep
      refine ⟨rfl, ?_⟩
      exact run_keeps_timer es2 _ s3 (sa.now + 5000) hrun2
        (List.mem_append_right _ (List.mem_singleton.mpr rfl)) hlt

/-- Witness for C10: `report.pdf` resolves at time 0, `notes.txt` starts
uploading at 2000 and resolves at 2500; at 5000 the banner of `notes.txt` is
gone although its own timer, due at 7500, is still queued. -/
theorem stale_timer_clears_newer_banner_witness :
    secondUploadResolved.uploadStatus = some (successStatus { chunks_created := .safe 3 }) ∧
    (elapse secondUploadResolved 2500).now = 5000 ∧
    (elapse secondUploadResolved 2500).uploadStatus = none ∧
    7500 ∈ (elapse secondUploadResolved 2500).timers :=
  ⟨by decide, by decide,
   (stale_timer_clears_newer_banner init reportPdf { chunks_created := .safe 14 }).1
      [.elapse 2000, .upload (some notesTxt), .elapse 500] [.elapse 2500]
      (.uploadSettle 0 (.resolved { chunks_created := .safe 3 }))
      secondUploadPending secondUploadResolved (elapse secondUploadResolved 2500)
      rfl (by decide) rfl rfl rfl (by decide) (by decide),
   ((stale_timer_clears_newer_banner init reportPdf { chunks_created := .safe 14 }).2
      [.elapse 2500] 0 { chunks_created := .safe 3 }
      secondUploadPending secondUploadResolved (elapse secondUploadResolved 2500)
      rfl rfl (by decide)).2⟩

/-- C10 as stated fails: `report.pdf` resolves at time 0 and `notes.txt`
resolves at time 2000, replacing the banner; at time 5000 the banner is
absent instead of still showing the second status, which the claim lets
expire only at 7000. The same happens to the `info` banner of an upload that
starts at 2000. -/
theorem stale_timer_counterexample :
    (run init [.upload (some reportPdf), .upload (some notesTxt),
        .uploadSettle 0 (.resolved { chunks_created := .safe 14 }), .elapse 2000,
        .uploadSettle 0 (.resolved { chunks_created := .safe 3 })]).map
        (fun s => (s.now, s.uploadStatus, s.timers)) =
      some (2000,
        some { type := .success
               message := "✅ Document processed! 3 chunks stored in vector database." },
        [5000, 7000]) ∧
    (run init [.upload (some reportPdf), .upload (some notesTxt),
        .uploadSettle 0 (.resolved { chunks_created := .safe 14 }), .elapse 2000,
        .uploadSettle 0 (.resolved { chunks_created := .safe 3 }), .elapse 3000]).map
        (fun s => (s.now, s.uploadStatus, s.timers)) =
      some (5000, none, [7000]) ∧
    (run init [.upload (some reportPdf),
        .uploadSettle 0 (.resolved { chunks_created := .safe 14 }), .elapse 2000,
        .upload (some notesTxt)]).map (fun s => (s.now, s.uploadStatus)) =
      some (2000, some { type := .info, message := "Uploading notes.txt..." }) ∧
    (run init [.upload (some reportPdf),
        .uploadSettle 0 (.resolved { chunks_created := .safe 14 }), .elapse 2000,
        .upload (some notesTxt), .elapse 3000]).map (fun s => (s.now, s.uploadStatus)) =
      some (5000, none) := by
  decide

/-! ## Tool display mapping (C11) -/

/-- C11: `getToolLabel` maps `qa_tool` to `Q&A`, `insights_tool` to `Insights`
and `extract_tool` to `Extract`; `getToolIcon` maps each of the three to an
icon, and the three icons are pairwise distinct; for every other string `x`
the icon is `null` and the label is `x` itself. Both functions are total, so
neither can fail. -/
theorem tool_mapping_total_with_fallback :
    getToolLabel "qa_tool" = "Q&A" ∧
    getToolLabel "insights_tool" = "Insights" ∧
    getToolLabel "extract_tool" = "Extract" ∧
    (∃ a b c : IconElement,
      getToolIcon "qa_tool" = some a ∧
      getToolIcon "insights_tool" = some b ∧
      getToolIcon "extract_tool" = some c ∧
      a ≠ b ∧ a ≠ c ∧ b ≠ c) ∧
    (∀ x : String, x ≠ "qa_tool" → x ≠ "insights_tool" → x ≠ "extract_tool" →
      getToolIcon x = none ∧ getToolLabel x = x) := by
  refine ⟨by decide, by decide, by decide, ?_, ?_⟩
  · exact ⟨{ component := .PsychologyIcon, fontSize := 16 },
      { component := .InsightsIcon, fontSize := 16 },
      { component := .DataObjectIcon, fontSize := 16 },
      by decide, by decide, by decide, by decide, by decide, by decide⟩
  · intro x h1 h2 h3
    simp [getToolIcon, getToolLabel, h1, h2, h3]

/-- Witness for C11: the empty string, a name that differs from a known one
only in case, and an unknown tool. -/
theorem tool_mapping_total_with_fallback_witness :
    (getToolIcon "" = none ∧ getToolLabel "" = "") ∧
    (getToolIcon "QA_Tool" = none ∧ getToolLabel "QA_Tool" = "QA_Tool") ∧
    (getToolIcon "summary_tool" = none ∧ getToolLabel "summary_tool" = "summary_tool") :=
  ⟨tool_mapping_total_with_fallback.2.2.2.2 "" (by decide) (by decide) (by decide),
   tool_mapping_total_with_fallback.2.2.2.2 "QA_Tool" (by decide) (by decide) (by decide),
   tool_mapping_total_with_fallback.2.2.2.2 "summary_tool" (by decide) (by decide) (by decide)⟩

/-! ## Independence of the two workflows (C12) -/

/-- C12: in every state, whatever the pending flag, an upload of a selected
file is accepted: it writes the `info` banner and issues the upload call.
Neither the start nor the settle of an upload changes the pending flag or
the draft; neither a submit nor the settle of a query (resolved or rejected)
changes the banner. -/
theorem workflows_independent (s : State) :
    (∀ f : File,
      step s (.upload (some f)) = some (handleFileUpload s (some f)) ∧
      (handleFileUpload s (some f)).uploadStatus =
        some { type := .info, message := "Uploading " ++ f.name ++ "..." } ∧
      (handleFileUpload s (some f)).uploadCalls = s.uploadCalls ++ [f] ∧
      (handleFileUpload s (some f)).isLoading = s.isLoading ∧
      (handleFileUpload s (some f)).inputMessage = s.inputMessage) ∧
    (∀ (i : Nat) (o : Outcome UploadResponse) (s' : State),
      step s (.uploadSettle i o) = some s' →
      s'.isLoading = s.isLoading ∧ s'.inputMessage = s.inputMessage) ∧
    (∀ s' : State, step s .submit = some s' → s'.uploadStatus = s.uploadStatus) ∧
    (∀ (i : Nat) (o : Outcome QueryResponse) (s' : State),
      step s (.querySettle i o) = some s' → s'.uploadStatus = s.uploadStatus) := by
  refine ⟨fun f => ⟨rfl, rfl, rfl, rfl, rfl⟩, ?_, ?_, ?_⟩
  · intro i o s' hstep
    simp only [step] at hstep
    cases hc : s.uploadCalls[i]? with
    | none => rw [hc] at hstep; exact Option.noConfusion hstep
    | some f =>
      rw [hc] at hstep
      simp only [Option.some.injEq] at hstep
      subst hstep
      cases o <;> exact ⟨rfl, rfl⟩
  · intro s' hstep
    simp only [step, Option.some.injEq] at hstep
    subst hstep
    cases hg : (!truthy (jsTrim s.inputMessage) || s.isLoading)
    · rw [handleSendMessage_of_pass s hg]
    · rw [handleSendMessage_of_guard s hg]
  · intro i o s' hstep
    simp only [step] at hstep
    cases hc : s.queryCalls[i]? with
    | none => rw [hc] at hstep; exact Option.noConfusion hstep
    | some c =>
      rw [hc] at hstep
      simp only [Option.some.injEq] at hstep
      subst hstep
      cases o <;> rfl

/-- Witness for C12: while the query "hi" is pending with the draft "next",
`report.pdf` is uploaded and resolves, then the query is rejected while the
`success` banner shows. -/
theorem workflows_independent_witness :
    pendingWithDraft.isLoading = true ∧
    (handleFileUpload pendingWithDraft (some reportPdf)).uploadCalls = [reportPdf] ∧
    (uploadedWhilePending.isLoading = true ∧ uploadedWhilePending.inputMessage = "next") ∧
    (settleQuery { uploadedWhilePending with queryCalls := [] }
        (.rejected networkError)).uploadStatus =
      some (successStatus { chunks_created := .safe 14 }) :=
  ⟨by decide,
   ((workflows_independent pendingWithDraft).1 reportPdf).2.2.1,
   (workflows_independent (handleFileUpload pendingWithDraft (some reportPdf))).2.1 0
     (.resolved { chunks_created := .safe 14 }) uploadedWhilePending rfl,
   (workflows_independent uploadedWhilePending).2.2.2 0 (.rejected networkError)
     (settleQuery { uploadedWhilePending with queryCalls := [] } (.rejected networkError)) rfl⟩

end App
